import Mathlib

/-!
TCP tunnel (`components/proxy/plugins/tcptunnel/tcp-tunnel.go`).

A shallow embedding of the `SSHTunnel` caddy app: `Start`, `Stop`, the accept
loop `serve` and the per-connection forwarder `handle`.

Effects are recorded as a chronological list of `Event`s.  Everything the
operating system, the network or the Go runtime decides (the outcome of
`Listen`, `Accept`, `Dial`, `Close`, the moment an `io.Copy` returns, the
scheduling of goroutines) is an explicit input of the model.
-/

namespace TcpTunnel

/-! ## Go values -/

/-- A Go `error` value.  `isNetError` says whether the type assertion
`err.(net.Error)` succeeds, `temporary` is what `Temporary()` then returns,
`msg` is the text of `Error()`. -/
structure GoError where
  msg : String
  isNetError : Bool
  temporary : Bool
  deriving DecidableEq, Repr

/-- Listener handle (`net.Listener`). -/
abbrev Listener := Nat

/-- A `net.Conn`, named after the call that produced it. -/
inductive Conn where
  | accepted (id : Nat)
  | dialed (id : Nat)
  deriving DecidableEq, Repr

/-- The payload of a TCP stream. -/
abbrev Byte := Nat

/-- The two copy goroutines of `handle`. -/
inductive Dir where
  /-- Line 79: `io.Copy(conn, tconn); cancel()` (upstream to inbound). -/
  | toInbound
  /-- Line 84: `io.Copy(tconn, conn); cancel()` (inbound to upstream). -/
  | toUpstream
  deriving DecidableEq, Repr

/-- Observable effects of the program, in the order they happen. -/
inductive Event where
  /-- A call of `caddy.Listen(network, addr)`. -/
  | listen (network addr : String)
  /-- The statement `go s.serve()`. -/
  | goServe
  /-- A call of `fmt.Println` or `fmt.Printf`: the text written to standard output. -/
  | print (text : String)
  /-- A call of `s.listener.Close()`. -/
  | closeListener (ln : Listener)
  /-- A call of `s.listener.Accept()` that has returned. -/
  | accept
  /-- The statement `go s.handle(conn)`. -/
  | goHandle (conn : Conn)
  /-- A call of `net.Dial(network, addr)`. -/
  | dial (network addr : String)
  /-- One of the two `go func() ...` statements of `handle`. -/
  | goCopy (d : Dir)
  /-- A copy goroutine called `cancel()`. -/
  | cancel (d : Dir)
  /-- A call of `Close()` on a connection. -/
  | closeConn (c : Conn)
  deriving DecidableEq, Repr

/-! ## `fmt.Sprintf` -/

/-- What fmt appends when operands are left over: `%!(EXTRA string=a, string=b)`. -/
def extraOperands : List String → List Char
  | [] => []
  | a :: rest =>
    "%!(EXTRA ".data ++ (", ".intercalate ((a :: rest).map fun x => "string=" ++ x)).data ++ [')']

/-- The scanner of `fmt.Sprintf` on string-valued operands (a Go `string`, or
an `error` given by its `Error()` text).  The flag says that the previous
character was a `%` still waiting for its verb.  Covered: literal text, `%%`,
`%s` and `%v`; a missing operand, a missing verb and left-over operands are
reported the way fmt reports them; any other verb is reported as fmt reports
a verb that does not apply to a string (flags, widths, `%q` and `%x` are
outside this model). -/
def sprintfGo : Bool → List Char → List String → List Char
  | false, [], args => extraOperands args
  | true, [], args => "%!(NOVERB)".data ++ extraOperands args
  | false, c :: fmt, args =>
    if c = '%' then sprintfGo true fmt args else c :: sprintfGo false fmt args
  | true, c :: fmt, args =>
    if c = '%' then '%' :: sprintfGo false fmt args
    else match args with
      | [] => ['%', '!', c] ++ "(MISSING)".data ++ sprintfGo false fmt []
      | a :: rest =>
        if c = 's' ∨ c = 'v' then a.data ++ sprintfGo false fmt rest
        else ['%', '!', c] ++ "(string=".data ++ a.data ++ [')'] ++ sprintfGo false fmt rest

/-- The function `fmt.Sprintf(format, operands...)` on string-valued operands. -/
def sprintf (format : String) (operands : List String) : String :=
  String.mk (sprintfGo false format.data operands)

/-! ## The accept loop: `serve` -/

/-- What one call of `s.listener.Accept()` returns: the pair `(conn, err)`.
`conn` is the number of the accepted connection and is meaningful when `err`
is `none`. -/
structure AcceptResult where
  conn : Nat
  err : Option GoError
  deriving DecidableEq, Repr

/-- Line 58: `nerr, ok := err.(net.Error); ok && nerr.Temporary()`. -/
def isTemporary : Option GoError → Bool
  | none => false
  | some e => e.isNetError && e.temporary

/-- How one iteration of the `for` loop of `serve` ends. -/
inductive ServeStep where
  /-- Line 60: `continue`. -/
  | next
  /-- Line 63: `return`. -/
  | ret
  /-- Line 65: `go s.handle(conn)`, then the next iteration. -/
  | spawn (conn : Nat)
  deriving DecidableEq, Repr

/-- Lines 58 to 65: the body of the loop after `Accept` has returned `r`. -/
def serveIter (r : AcceptResult) : ServeStep :=
  if isTemporary r.err then .next
  else if r.err.isSome then .ret
  else .spawn r.conn

/-- The result of running `serve` against a finite sequence of accept
outcomes.  `returned = false` means the loop consumed every outcome and is
blocked in the next `Accept`. -/
structure ServeRun where
  trace : List Event
  returned : Bool
  deriving DecidableEq, Repr

/-- Lines 55 to 67: `serve`, run against the outcomes of its successive
`Accept` calls. -/
def serve : List AcceptResult → ServeRun
  | [] => { trace := [], returned := false }
  | r :: rs =>
    match serveIter r with
    | .next =>
      let k := serve rs
      { trace := Event.accept :: k.trace, returned := k.returned }
    | .ret => { trace := [Event.accept], returned := true }
    | .spawn c =>
      let k := serve rs
      { trace := Event.accept :: Event.goHandle (.accepted c) :: k.trace, returned := k.returned }

/-- The sessions spawned in a trace, in order. -/
def spawned : List Event → List Conn
  | [] => []
  | Event.goHandle c :: es => c :: spawned es
  | _ :: es => spawned es

/-- The number of `Accept` calls in a trace. -/
def acceptCalls : List Event → Nat
  | [] => 0
  | Event.accept :: es => acceptCalls es + 1
  | _ :: es => acceptCalls es

/-- The texts printed in a trace, in order. -/
def printed : List Event → List String
  | [] => []
  | Event.print t :: es => t :: printed es
  | _ :: es => printed es

/-- An accept outcome that ends the loop: an error that is not temporary. -/
def isFatal (r : AcceptResult) : Bool :=
  r.err.isSome && !isTemporary r.err

/-- An accept outcome that delivers a connection. -/
def isSuccess (r : AcceptResult) : Bool :=
  r.err.isNone

/-- What the outcome `r` of one `Accept` call adds to the trace when it does
not end the loop: the call itself, followed by the spawn when it delivered a
connection. -/
def iterEvents (r : AcceptResult) : List Event :=
  if isSuccess r then [Event.accept, Event.goHandle (.accepted r.conn)] else [Event.accept]

/-- The outcomes that precede the first non-temporary error. -/
def beforeFatal (rs : List AcceptResult) : List AcceptResult :=
  rs.takeWhile fun r => !isFatal r

/-! ## The forwarder session: `handle` -/

/-- What `handle` reads from its surroundings: the process environment
(`os.Getenv`) and the outcome of `net.Dial(network, addr)`, which is the
number of the new connection or the error. -/
structure Env where
  getenv : String → String
  dial : String → String → Except GoError Nat

/-- Line 71: the address `handle` dials. -/
def upstreamAddr (env : Env) : String :=
  sprintf "ws-proxy.%s.%s:2200" [env.getenv "KUBE_NAMESPACE", env.getenv "KUBE_DOMAIN"]

/-- Line 74: the text `handle` prints when the dial has failed. -/
def dialFailedText (addr : String) (err : GoError) : String :=
  sprintf "dial %s failed with:%v\n" [addr, err.msg]

/-- Where the goroutine running `handle` stands: the statement it executes
next. -/
inductive HandlePc where
  /-- Lines 70 to 72: `defer conn.Close()`, build `addr`, `net.Dial`. -/
  | dialing
  /-- Line 74: the dial returned `err`; `fmt.Printf` is next. -/
  | dialFailed (err : GoError)
  /-- Lines 77 to 82: `defer tconn.Close()`, `context.WithCancel`, first `go`. -/
  | spawnFirst
  /-- Lines 84 to 87: second `go`. -/
  | spawnSecond
  /-- Line 88: `<-ctx.Done()`. -/
  | waiting
  /-- Returning: the deferred `tconn.Close()` is next. -/
  | closeOut
  /-- Returning: the deferred `conn.Close()` is next. -/
  | closeIn
  /-- The function `handle` has returned. -/
  | returned
  deriving DecidableEq, Repr

/-- Where a copy goroutine stands. -/
inductive TaskPc where
  /-- Its `go` statement has not been executed. -/
  | notStarted
  /-- Inside `io.Copy`. -/
  | copying
  /-- Its `io.Copy` has returned; `cancel()` is next. -/
  | copied
  /-- It has called `cancel()` and ended. -/
  | finished
  deriving DecidableEq, Repr

/-- The two connections of a session. -/
inductive Side where
  /-- The argument `conn` of `handle`. -/
  | inbound
  /-- The local `tconn` of `handle`. -/
  | outbound
  deriving DecidableEq, Repr

/-- The destination of the `io.Copy(dst, src)` of a copy goroutine: `conn` at
line 80, `tconn` at line 85. -/
def Dir.dst : Dir → Side
  | .toInbound => .inbound
  | .toUpstream => .outbound

/-- The source of the `io.Copy(dst, src)` of a copy goroutine: `tconn` at
line 80, `conn` at line 85. -/
def Dir.src : Dir → Side
  | .toInbound => .outbound
  | .toUpstream => .inbound

/-- The bytes on one connection, seen from the tunnel. -/
structure Wire where
  /-- Every byte the peer has written to its end so far, in order. -/
  peerSent : List Byte
  /-- The bytes that have arrived and that no `Read` of the tunnel has
  returned yet. -/
  unread : List Byte
  /-- Every byte the tunnel has written to the connection, in order: what
  the peer receives. -/
  written : List Byte
  deriving DecidableEq, Repr

/-- The size of the buffer `io.Copy` reads into: 32 KiB. -/
def copyBufSize : Nat := 32768

/-- The state of one session: the locals of `handle`, its two goroutines, the
cancellation context, both connections and the bytes in flight. -/
structure Session where
  /-- The argument `conn`: the number of the accepted connection. -/
  conn : Nat
  /-- The local `addr` (empty before line 71). -/
  addr : String
  /-- The local `tconn`: set once the dial has succeeded. -/
  tconn : Option Nat
  pc : HandlePc
  /-- The goroutine of line 79, `io.Copy(conn, tconn)`. -/
  taskIn : TaskPc
  /-- The goroutine of line 84, `io.Copy(tconn, conn)`. -/
  taskUp : TaskPc
  /-- Whether `ctx` is cancelled. -/
  ctxDone : Bool
  /-- Whether `conn.Close()` has been called. -/
  connClosed : Bool
  /-- Whether `tconn.Close()` has been called. -/
  tconnClosed : Bool
  /-- The bytes on `conn`; its peer is the inbound peer. -/
  connWire : Wire
  /-- The bytes on `tconn`; its peer is the upstream peer. -/
  tconnWire : Wire
  /-- The buffer of the `io.Copy` of line 80: bytes it has read and not yet
  written. -/
  bufIn : List Byte
  /-- The buffer of the `io.Copy` of line 85: bytes it has read and not yet
  written. -/
  bufUp : List Byte
  trace : List Event
  deriving DecidableEq, Repr

/-- The session at the moment `go s.handle(conn)` starts it. -/
def Session.init (conn : Nat) : Session :=
  { conn := conn, addr := "", tconn := none, pc := .dialing,
    taskIn := .notStarted, taskUp := .notStarted, ctxDone := false,
    connClosed := false, tconnClosed := false,
    connWire := ⟨[], [], []⟩, tconnWire := ⟨[], [], []⟩, bufIn := [], bufUp := [],
    trace := [] }

/-- What can happen next in a session; the scheduler and the network choose. -/
inductive Action where
  /-- The goroutine running `handle` executes its next statement. -/
  | main
  /-- The `io.Copy` of goroutine `d` calls `Read` on its source, which
  returns the next `n` bytes (at most a buffer full, at most what is there). -/
  | copyRead (d : Dir) (n : Nat)
  /-- The `io.Copy` of goroutine `d` calls `Write` on its destination with
  the bytes it has read. -/
  | copyWrite (d : Dir)
  /-- The `io.Copy` of goroutine `d` returns (end of stream, or an error of
  `Read` or `Write`); what it had read and not written is dropped. -/
  | copyReturns (d : Dir)
  /-- Goroutine `d` executes the statement after its `io.Copy`: `cancel()`. -/
  | task (d : Dir)
  /-- The inbound peer writes bytes to its end of `conn`. -/
  | inboundSends (bs : List Byte)
  /-- The upstream peer writes bytes to its end of `tconn`. -/
  | upstreamSends (bs : List Byte)
  deriving DecidableEq, Repr

/-- The state of goroutine `d`. -/
def Session.task (s : Session) : Dir → TaskPc
  | .toInbound => s.taskIn
  | .toUpstream => s.taskUp

/-- Update the state of goroutine `d`. -/
def Session.setTask (s : Session) (d : Dir) (t : TaskPc) : Session :=
  match d with
  | .toInbound => { s with taskIn := t }
  | .toUpstream => { s with taskUp := t }

/-- The buffer of the `io.Copy` of goroutine `d`. -/
def Session.buf (s : Session) : Dir → List Byte
  | .toInbound => s.bufIn
  | .toUpstream => s.bufUp

/-- Update the buffer of the `io.Copy` of goroutine `d`. -/
def Session.setBuf (s : Session) (d : Dir) (bs : List Byte) : Session :=
  match d with
  | .toInbound => { s with bufIn := bs }
  | .toUpstream => { s with bufUp := bs }

/-- The bytes on a connection. -/
def Session.wire (s : Session) : Side → Wire
  | .inbound => s.connWire
  | .outbound => s.tconnWire

/-- Update the bytes on a connection. -/
def Session.setWire (s : Session) (c : Side) (w : Wire) : Session :=
  match c with
  | .inbound => { s with connWire := w }
  | .outbound => { s with tconnWire := w }

/-- Whether `handle` has closed a connection. -/
def Session.isClosed (s : Session) : Side → Bool
  | .inbound => s.connClosed
  | .outbound => s.tconnClosed

/-- Lines 69 to 89: `handle`, one statement at a time.  The position `s.pc`
says which statement the goroutine running `handle` executes next; at line 88
it stays where it is until `ctx` is cancelled. -/
def handle (env : Env) (s : Session) : Session :=
  match s.pc with
  | .dialing =>
    let addr := upstreamAddr env
    match env.dial "tcp" addr with
    | .error err =>
      { s with addr := addr, pc := .dialFailed err, trace := s.trace ++ [.dial "tcp" addr] }
    | .ok t =>
      { s with addr := addr, tconn := some t, pc := .spawnFirst,
               trace := s.trace ++ [.dial "tcp" addr] }
  | .dialFailed err =>
    { s with pc := .closeIn, trace := s.trace ++ [.print (dialFailedText s.addr err)] }
  | .spawnFirst =>
    { s with taskIn := .copying, pc := .spawnSecond, trace := s.trace ++ [.goCopy .toInbound] }
  | .spawnSecond =>
    { s with taskUp := .copying, pc := .waiting, trace := s.trace ++ [.goCopy .toUpstream] }
  | .waiting => if s.ctxDone then { s with pc := .closeOut } else s
  | .closeOut =>
    match s.tconn with
    | some t =>
      { s with tconnClosed := true, pc := .closeIn, trace := s.trace ++ [.closeConn (.dialed t)] }
    | none => s
  | .closeIn =>
    { s with connClosed := true, pc := .returned,
             trace := s.trace ++ [.closeConn (.accepted s.conn)] }
  | .returned => s

/-- Inside `io.Copy(dst, src)` of goroutine `d`: `src.Read(buf)` returns the
next `n` bytes, at most `copyBufSize` of them.  It happens only while the
goroutine is inside `io.Copy` with an empty buffer and `handle` has not
closed the source. -/
def Session.copyRead (s : Session) (d : Dir) (n : Nat) : Session :=
  if s.task d = .copying ∧ s.buf d = [] ∧ s.isClosed d.src = false then
    (s.setWire d.src
      { s.wire d.src with unread := (s.wire d.src).unread.drop (min n copyBufSize) }).setBuf d
        ((s.wire d.src).unread.take (min n copyBufSize))
  else s

/-- Inside `io.Copy(dst, src)` of goroutine `d`: `dst.Write` of the bytes
read.  It succeeds only while the goroutine is inside `io.Copy` and `handle`
has not closed the destination. -/
def Session.copyWrite (s : Session) (d : Dir) : Session :=
  if s.task d = .copying ∧ s.isClosed d.dst = false then
    (s.setWire d.dst
      { s.wire d.dst with written := (s.wire d.dst).written ++ s.buf d }).setBuf d []
  else s

/-- One step of a session. -/
def Session.step (env : Env) (s : Session) : Action → Session
  | .main => handle env s
  | .copyRead d n => s.copyRead d n
  | .copyWrite d => s.copyWrite d
  | .copyReturns d => if s.task d = .copying then s.setTask d .copied else s
  | .task d =>
    if s.task d = .copied then
      { s.setTask d .finished with ctxDone := true, trace := s.trace ++ [.cancel d] }
    else s
  | .inboundSends bs =>
    { s with connWire := { s.connWire with peerSent := s.connWire.peerSent ++ bs,
                                           unread := s.connWire.unread ++ bs } }
  | .upstreamSends bs =>
    if s.tconn.isSome then
      { s with tconnWire := { s.tconnWire with peerSent := s.tconnWire.peerSent ++ bs,
                                               unread := s.tconnWire.unread ++ bs } }
    else s

/-- Run a session from `s` along a schedule. -/
def Session.run (env : Env) (s : Session) (sched : List Action) : Session :=
  sched.foldl (Session.step env) s

/-- How many times `Close()` was called on connection `c` in a trace. -/
def closeCount (c : Conn) (tr : List Event) : Nat :=
  (tr.filter fun e => e = Event.closeConn c).length

/-- Whether an event is a completion signal of a copy goroutine. -/
def Event.isCancel : Event → Bool
  | .cancel _ => true
  | _ => false

/-- How many times a copy goroutine signalled completion in a trace. -/
def cancelCount (tr : List Event) : Nat :=
  (tr.filter Event.isCancel).length

/-- The whole trace of a session whose dial failed with `err`. -/
def failureTrace (env : Env) (conn : Nat) (err : GoError) : List Event :=
  [Event.dial "tcp" (upstreamAddr env),
   Event.print ("dial " ++ upstreamAddr env ++ " failed with:" ++ err.msg ++ "\n"),
   Event.closeConn (.accepted conn)]

/-- An environment in which the upstream accepts the dial. -/
def reachableEnv : Env :=
  { getenv := fun k =>
      if k = "KUBE_NAMESPACE" then "default" else if k = "KUBE_DOMAIN" then "example.com" else "",
    dial := fun _ _ => .ok 7 }

/-- An environment in which the upstream refuses the dial. -/
def unreachableEnv : Env :=
  { getenv := fun _ => "",
    dial := fun _ _ => .error ⟨"connection refused", true, false⟩ }

/-- What holds in every reachable state of a session whose dial succeeds
with connection `t`: the position of `handle` fixes how often each connection
has been closed, and `handle` gets past line 88 only once `ctx` is cancelled,
which only a `cancel()` of a copy goroutine brings about. -/
structure Session.InvOk (conn t : Nat) (s : Session) : Prop where
  conn_eq : s.conn = conn
  done_iff : s.ctxDone = true ↔ 0 < cancelCount s.trace
  not_failed : ∀ e, s.pc ≠ .dialFailed e
  tconn_eq : s.pc ≠ .dialing → s.tconn = some t
  past_wait : s.pc = .closeOut ∨ s.pc = .closeIn ∨ s.pc = .returned → s.ctxDone = true
  out_count : closeCount (.dialed t) s.trace = if s.pc = .closeIn ∨ s.pc = .returned then 1 else 0
  in_count : closeCount (.accepted conn) s.trace = if s.pc = .returned then 1 else 0
  others : ∀ c, c ≠ .dialed t → c ≠ .accepted conn → closeCount c s.trace = 0
  in_started : s.pc = .spawnSecond ∨ s.pc = .waiting ∨ s.pc = .closeOut ∨ s.pc = .closeIn
    ∨ s.pc = .returned → s.taskIn ≠ .notStarted
  up_started : s.pc = .waiting ∨ s.pc = .closeOut ∨ s.pc = .closeIn ∨ s.pc = .returned →
    s.taskUp ≠ .notStarted
  finished_done : s.taskIn = .finished ∨ s.taskUp = .finished → s.ctxDone = true

/-- What holds in every reachable state of a session whose dial fails with
`err`: the trace is the part of `failureTrace` that the position of `handle`
stands for, and no copy goroutine exists. -/
structure Session.InvFail (env : Env) (conn : Nat) (err : GoError) (s : Session) : Prop where
  conn_eq : s.conn = conn
  taskIn_eq : s.taskIn = .notStarted
  taskUp_eq : s.taskUp = .notStarted
  tconn_eq : s.tconn = none
  shape : (s.pc = .dialing ∧ s.trace = [])
    ∨ (s.pc = .dialFailed err ∧ s.addr = upstreamAddr env
        ∧ s.trace = (failureTrace env conn err).take 1)
    ∨ (s.pc = .closeIn ∧ s.trace = (failureTrace env conn err).take 2)
    ∨ (s.pc = .returned ∧ s.trace = failureTrace env conn err)

/-- How many more steps of its goroutine `handle` needs to return once the
dial has failed. -/
def HandlePc.stepsLeft : HandlePc → Nat
  | .dialing => 3
  | .dialFailed _ => 2
  | .closeIn => 1
  | _ => 0

/-- A schedule in which the goroutine of line 79 (upstream to inbound) ends
first: its copy returns and it cancels, the other one follows, then `handle`
resumes. -/
def inboundFirst : List Action :=
  [.main, .main, .main, .copyReturns .toInbound, .task .toInbound,
   .copyReturns .toUpstream, .task .toUpstream, .main, .main, .main]

/-- A schedule in which the goroutine of line 84 (inbound to upstream) ends
first, and the other one signals only after `handle` has returned. -/
def upstreamFirst : List Action :=
  [.main, .main, .main, .copyReturns .toUpstream, .task .toUpstream,
   .main, .main, .main, .copyReturns .toInbound, .task .toInbound]

/-- The schedule in which `handle` is given three steps, the `io.Copy` of
goroutine `d` returns, the goroutine calls `cancel()`, and `handle` is given
three more steps. -/
def finishFirst (d : Dir) : List Action :=
  [.main, .main, .main, .copyReturns d, .task d, .main, .main, .main]

/-- The `net.Dial` calls of a trace, in order: network and address. -/
def dialCalls : List Event → List (String × String)
  | [] => []
  | Event.dial nw a :: es => (nw, a) :: dialCalls es
  | _ :: es => dialCalls es

/-- The struct `SSHTunnel`; `none` is the nil listener of a tunnel that was
never started. -/
structure SSHTunnel where
  listener : Option Listener
  deriving DecidableEq, Repr

/-- What a call of `Start` or `Stop` leaves behind: the tunnel, the error it
returns and the effects it had. -/
structure CallResult where
  tunnel : SSHTunnel
  err : Option GoError
  trace : List Event
  deriving DecidableEq, Repr

/-- Lines 36 to 45: `Start`.  `listen` is `caddy.Listen`. -/
def Start (listen : String → String → Except GoError Listener) (s : SSHTunnel) : CallResult :=
  match listen "tcp" ":2200" with
  | .error err => { tunnel := s, err := some err, trace := [.listen "tcp" ":2200"] }
  | .ok ln =>
    { tunnel := { s with listener := some ln }, err := none,
      trace := [.listen "tcp" ":2200", .goServe, .print "ssh tunnel is running\n"] }

/-- Lines 47 to 53: `Stop`.  `close` is the outcome of `Close()` on a
listener.  The receiver is a copy of the tunnel, which is left as it was.  On
a nil listener the call panics: `none`. -/
def Stop (close : Listener → Option GoError) (s : SSHTunnel) : Option CallResult :=
  match s.listener with
  | none => none
  | some ln =>
    match close ln with
    | some err => some { tunnel := s, err := some err, trace := [.closeListener ln] }
    | none => some { tunnel := s, err := none, trace := [.closeListener ln] }

/-- The `caddy.Listen` calls of a trace, in order: network and address. -/
def listenCalls : List Event → List (String × String)
  | [] => []
  | Event.listen nw a :: es => (nw, a) :: listenCalls es
  | _ :: es => listenCalls es

/-- How many accept loops a trace launches. -/
def serveLaunches (tr : List Event) : Nat :=
  (tr.filter fun e => e = Event.goServe).length

/-- The listeners on which a trace calls `Close()`, in order. -/
def listenerCloses : List Event → List Listener
  | [] => []
  | Event.closeListener ln :: es => ln :: listenerCloses es
  | _ :: es => listenerCloses es

/-! ## The whole process -/

/-- What `Accept` returns on a listener that has been closed: an error that
is a `net.Error` and is not temporary. -/
def errClosed : GoError :=
  { msg := "use of closed network connection", isNetError := true, temporary := false }

/-- Apply `f` to the element at position `i`, if there is one. -/
def modifyAt {α : Type} (f : α → α) : Nat → List α → List α
  | _, [] => []
  | 0, x :: xs => f x :: xs
  | i + 1, x :: xs => x :: modifyAt f i xs

/-- Where a goroutine running `serve` stands. -/
inductive LoopPc where
  /-- Line 57 is next: read `s.listener` and call `Accept` on it. -/
  | top
  /-- Inside `Accept` on the listener that was stored when the call began. -/
  | blocked (ln : Listener)
  /-- The call of `Accept` has returned `r`; lines 58 to 65 are next. -/
  | got (r : AcceptResult)
  /-- The function `serve` has returned (line 63). -/
  | ended
  deriving DecidableEq, Repr

/-- Whether an accept loop holds a connection that `Accept` has delivered and
that it has not handed to `handle` yet. -/
def LoopPc.holdsConn : LoopPc → Bool
  | .got r =>
    match serveIter r with
    | .spawn _ => true
    | _ => false
  | _ => false

/-- The process: one tunnel instance, its listeners, its accept loops and the
sessions they have spawned. -/
structure World where
  tunnel : SSHTunnel
  /-- How many listeners `Start` has opened; the next one gets this number. -/
  opened : Nat
  /-- The listeners opened by a `Start` and not yet closed by a `Stop`. -/
  live : List Listener
  /-- The goroutines running `serve`, in the order `Start` launched them. -/
  loops : List LoopPc
  /-- The sessions spawned so far, in order, each with its own state. -/
  sessions : List Session
  /-- Whether the process has died of a panic. -/
  crashed : Bool
  /-- The effects of `Start`, `Stop` and `serve`, in order. -/
  trace : List Event
  deriving DecidableEq, Repr

/-- A fresh process: the zero value of `SSHTunnel`, nothing running. -/
def World.init : World :=
  { tunnel := ⟨none⟩, opened := 0, live := [], loops := [], sessions := [], crashed := false,
    trace := [] }

/-- What can happen next in the process. -/
inductive Call where
  /-- The host calls `Start`; the listen fails with the error given, or
  succeeds. -/
  | start (listenErr : Option GoError)
  /-- The host calls `Stop`; the close fails with the error given, or
  succeeds. -/
  | stop (closeErr : Option GoError)
  /-- Accept loop number `i` takes its next step; when that step is the
  return of `Accept` on an open listener, `r` is what it returns. -/
  | loop (i : Nat) (r : AcceptResult)
  /-- Session number `i` takes a step. -/
  | session (i : Nat) (a : Action)
  deriving DecidableEq, Repr

/-- What a call of `Accept` on listener `ln` returns: what the network
delivers while the listener is open, the closed-listener error once `Stop`
has closed it. -/
def World.acceptOn (w : World) (ln : Listener) (r : AcceptResult) : AcceptResult :=
  if ln ∈ w.live then r else { conn := 0, err := some errClosed }

/-- The next step of accept loop number `i` (lines 55 to 67).  At line 57 the
loop reads `s.listener` and enters `Accept` on that listener, where it stays
until the call returns; then it runs lines 58 to 65 on what was returned. -/
def World.stepLoop (w : World) (i : Nat) (r : AcceptResult) : World :=
  match w.loops[i]? with
  | none => w
  | some .top =>
    match w.tunnel.listener with
    | none => { w with crashed := true }
    | some ln => { w with loops := w.loops.set i (.blocked ln) }
  | some (.blocked ln) =>
    { w with loops := w.loops.set i (.got (w.acceptOn ln r)), trace := w.trace ++ [.accept] }
  | some (.got res) =>
    match serveIter res with
    | .next => { w with loops := w.loops.set i .top }
    | .ret => { w with loops := w.loops.set i .ended }
    | .spawn c =>
      { w with loops := w.loops.set i .top, sessions := w.sessions ++ [Session.init c],
               trace := w.trace ++ [.goHandle (.accepted c)] }
  | some .ended => w

/-- One step of the process. -/
def World.step (env : Env) (w : World) (c : Call) : World :=
  if w.crashed then w else
  match c with
  | .start e =>
    let r := Start (fun _ _ => match e with
      | some err => .error err
      | none => .ok w.opened) w.tunnel
    if r.err.isNone then
      { w with tunnel := r.tunnel, opened := w.opened + 1, live := w.live ++ [w.opened],
               loops := w.loops ++ List.replicate (serveLaunches r.trace) .top,
               trace := w.trace ++ r.trace }
    else
      { w with tunnel := r.tunnel,
               loops := w.loops ++ List.replicate (serveLaunches r.trace) .top,
               trace := w.trace ++ r.trace }
  | .stop e =>
    match Stop (fun _ => e) w.tunnel with
    | none => { w with crashed := true }
    | some r =>
      if r.err.isNone then
        { w with tunnel := r.tunnel,
                 live := w.live.filter fun ln => ln ∉ listenerCloses r.trace,
                 trace := w.trace ++ r.trace }
      else { w with tunnel := r.tunnel, trace := w.trace ++ r.trace }
  | .loop i r => w.stepLoop i r
  | .session i a => { w with sessions := modifyAt (fun s => Session.step env s a) i w.sessions }

/-- Run the process from `w` along a sequence of calls. -/
def World.run (env : Env) (w : World) (calls : List Call) : World :=
  calls.foldl (World.step env) w

/-- The connections accepted so far: those handed to `handle`, and those an
accept loop has got from `Accept` and is about to hand over. -/
def World.accepted (w : World) : Nat :=
  w.sessions.length + w.loops.countP LoopPc.holdsConn

/-- The discipline of a host that never has two listeners open: a `Start`
succeeds only while no listener of an earlier `Start` is live.  The flag says
that none is live now: it is so at first and after a `Stop` whose close
succeeded, and a successful `Start` ends it. -/
def startsApart : Bool → List Call → Bool
  | _, [] => true
  | free, .start none :: cs => free && startsApart false cs
  | _, .stop none :: cs => startsApart true cs
  | free, _ :: cs => startsApart free cs

/-- What holds of the listeners along a sequence of calls that keeps the
discipline `startsApart`: a live listener is the one stored in the tunnel,
and there is at most one. -/
structure World.OneLive (free : Bool) (w : World) : Prop where
  stored : ∀ ln ∈ w.live, w.tunnel.listener = some ln
  atMostOne : w.live.length ≤ 1
  freeNone : free = true → w.live = []
  crashedNone : w.crashed = true → w.live = []

/-- An accept outcome that delivers connection 5. -/
def someConn : AcceptResult := { conn := 5, err := none }

/-- An accept outcome that is a temporary network error. -/
def tempError : AcceptResult :=
  { conn := 0, err := some ⟨"accept: too many open files", true, true⟩ }

/-! ## Theorems -/

theorem serveIter_of_fatal {r : AcceptResult} (h : isFatal r = true) : serveIter r = .ret := by
  cases r with
  | mk c e =>
    cases e with
    | none => simp [isFatal] at h
    | some e => simp [isFatal] at h; simp [serveIter, h]

theorem serveIter_of_not_fatal {r : AcceptResult} (h : isFatal r = false) :
    serveIter r = if isSuccess r then .spawn r.conn else .next := by
  cases r with
  | mk c e =>
    cases e with
    | none => simp [serveIter, isSuccess, isTemporary]
    | some e => simp [isFatal] at h; simp [serveIter, isSuccess, h]

theorem serve_trace_eq (rs : List AcceptResult) :
    (serve rs).trace
        = (beforeFatal rs).flatMap iterEvents ++ (if rs.any isFatal then [Event.accept] else [])
      ∧ (serve rs).returned = rs.any isFatal := by
  induction rs with
  | nil => simp [serve, beforeFatal]
  | cons r rs ih =>
    cases hf : isFatal r with
    | true => simp [serve, serveIter_of_fatal hf, beforeFatal, List.takeWhile, hf]
    | false =>
      have hi := serveIter_of_not_fatal hf
      cases hs : isSuccess r with
      | true =>
        simp only [hs, if_true] at hi
        simp [serve, hi, beforeFatal, List.takeWhile, hf, iterEvents, hs] at ih ⊢
        exact ih
      | false =>
        simp only [hs] at hi
        simp [serve, hi, beforeFatal, List.takeWhile, hf, iterEvents, hs] at ih ⊢
        exact ih

theorem spawned_append (xs ys : List Event) : spawned (xs ++ ys) = spawned xs ++ spawned ys := by
  induction xs with
  | nil => rfl
  | cons e es ih => cases e <;> simp [spawned, ih]

theorem acceptCalls_append (xs ys : List Event) :
    acceptCalls (xs ++ ys) = acceptCalls xs + acceptCalls ys := by
  induction xs with
  | nil => simp [acceptCalls]
  | cons e es ih =>
    cases e
    case accept => simp [acceptCalls, ih]; omega
    all_goals simp [acceptCalls, ih]

theorem printed_append (xs ys : List Event) : printed (xs ++ ys) = printed xs ++ printed ys := by
  induction xs with
  | nil => rfl
  | cons e es ih => cases e <;> simp [printed, ih]

theorem spawned_flatMap_iterEvents (rs : List AcceptResult) :
    spawned (rs.flatMap iterEvents) = (rs.filter isSuccess).map fun r => Conn.accepted r.conn := by
  induction rs with
  | nil => rfl
  | cons r rs ih =>
    cases hs : isSuccess r <;>
      simp [List.flatMap_cons, spawned_append, ih, iterEvents, hs, spawned, List.filter]

theorem acceptCalls_flatMap_iterEvents (rs : List AcceptResult) :
    acceptCalls (rs.flatMap iterEvents) = rs.length := by
  induction rs with
  | nil => rfl
  | cons r rs ih =>
    cases hs : isSuccess r <;>
      simp [List.flatMap_cons, acceptCalls_append, ih, iterEvents, hs, acceptCalls]

theorem printed_flatMap_iterEvents (rs : List AcceptResult) :
    printed (rs.flatMap iterEvents) = [] := by
  induction rs with
  | nil => rfl
  | cons r rs ih =>
    cases hs : isSuccess r <;>
      simp [List.flatMap_cons, printed_append, ih, iterEvents, hs, printed]

theorem beforeFatal_length_le (rs : List AcceptResult) : (beforeFatal rs).length ≤ rs.length := by
  induction rs with
  | nil => simp [beforeFatal]
  | cons r rs ih =>
    cases hf : isFatal r <;> simp [beforeFatal, List.takeWhile, hf] at ih ⊢
    exact ih

theorem beforeFatal_length_lt_iff (rs : List AcceptResult) :
    (beforeFatal rs).length < rs.length ↔ rs.any isFatal = true := by
  induction rs with
  | nil => simp [beforeFatal]
  | cons r rs ih =>
    cases hf : isFatal r <;> simp [beforeFatal, List.takeWhile, hf] at ih ⊢
    exact ih

/-- C1: for every sequence of accept outcomes, the trace of `serve` is, for
each outcome before the first non-temporary error and in that order, one
`Accept` call followed by one spawn exactly when the outcome delivered a
connection (nothing but the call for a temporary error), and then, when a
non-temporary error exists, one last `Accept` call after which `serve` has
returned.  Hence the sessions spawned are the successful accepts before the
first non-temporary error, in accept order, and `Accept` is called once per
outcome up to and including that error and never after it. -/
theorem serve_spawns_until_first_fatal (rs : List AcceptResult) :
    (serve rs).trace
        = (beforeFatal rs).flatMap iterEvents ++ (if rs.any isFatal then [Event.accept] else [])
      ∧ (serve rs).returned = rs.any isFatal
      ∧ spawned (serve rs).trace
          = ((beforeFatal rs).filter isSuccess).map (fun r => Conn.accepted r.conn)
      ∧ acceptCalls (serve rs).trace = min rs.length ((beforeFatal rs).length + 1)
      ∧ (∀ r ∈ rs, isTemporary r.err = true → iterEvents r = [Event.accept]) := by
  obtain ⟨ht, hr⟩ := serve_trace_eq rs
  refine ⟨ht, hr, ?_, ?_, ?_⟩
  · rw [ht, spawned_append, spawned_flatMap_iterEvents]
    cases rs.any isFatal <;> simp [spawned]
  · rw [ht, acceptCalls_append, acceptCalls_flatMap_iterEvents]
    have hle := beforeFatal_length_le rs
    have hlt := beforeFatal_length_lt_iff rs
    cases h : rs.any isFatal
    · have : ¬ (beforeFatal rs).length < rs.length := by rw [hlt, h]; simp
      simp [acceptCalls]; omega
    · have : (beforeFatal rs).length < rs.length := by rw [hlt, h]
      simp [acceptCalls]; omega
  · intro r _ h
    cases r with
    | mk c e =>
      cases e with
      | none => simp [isTemporary] at h
      | some e => simp [iterEvents, isSuccess]

/-! ### `fmt.Sprintf` on the two format strings of `handle` -/

theorem sprintf_addr (n d : String) :
    sprintf "ws-proxy.%s.%s:2200" [n, d] = "ws-proxy." ++ n ++ "." ++ d ++ ":2200" := by
  apply String.ext
  have hf : "ws-proxy.%s.%s:2200".data
      = ['w', 's', '-', 'p', 'r', 'o', 'x', 'y', '.', '%', 's', '.', '%', 's',
         ':', '2', '2', '0', '0'] := rfl
  have h1 : "ws-proxy.".data = ['w', 's', '-', 'p', 'r', 'o', 'x', 'y', '.'] := rfl
  have h2 : ".".data = ['.'] := rfl
  have h3 : ":2200".data = [':', '2', '2', '0', '0'] := rfl
  simp [sprintf, hf, h1, h2, h3, sprintfGo, extraOperands, String.data_append]

theorem sprintf_dialFailed (a e : String) :
    sprintf "dial %s failed with:%v\n" [a, e] = "dial " ++ a ++ " failed with:" ++ e ++ "\n" := by
  apply String.ext
  have hf : "dial %s failed with:%v\n".data
      = ['d', 'i', 'a', 'l', ' ', '%', 's', ' ', 'f', 'a', 'i', 'l', 'e', 'd', ' ',
         'w', 'i', 't', 'h', ':', '%', 'v', '\n'] := rfl
  have h1 : "dial ".data = ['d', 'i', 'a', 'l', ' '] := rfl
  have h2 : " failed with:".data
      = [' ', 'f', 'a', 'i', 'l', 'e', 'd', ' ', 'w', 'i', 't', 'h', ':'] := rfl
  have h3 : "\n".data = ['\n'] := rfl
  simp [sprintf, hf, h1, h2, h3, sprintfGo, extraOperands, String.data_append]

/-! ### Sessions: reachable states -/

theorem Session.run_append (env : Env) (s : Session) (xs ys : List Action) :
    Session.run env s (xs ++ ys) = Session.run env (Session.run env s xs) ys := by
  simp [Session.run, List.foldl_append]

theorem Session.run_invariant (env : Env) (P : Session → Prop)
    (hstep : ∀ s a, P s → P (Session.step env s a)) (s : Session) (h : P s)
    (sched : List Action) : P (Session.run env s sched) := by
  induction sched generalizing s with
  | nil => exact h
  | cons a rest ih => exact ih _ (hstep s a h)

theorem closeCount_snoc (c : Conn) (tr : List Event) (e : Event) :
    closeCount c (tr ++ [e]) = closeCount c tr + if e = Event.closeConn c then 1 else 0 := by
  by_cases h : e = Event.closeConn c <;> simp [closeCount, List.filter_append, List.filter, h]

theorem cancelCount_snoc (tr : List Event) (e : Event) :
    cancelCount (tr ++ [e]) = cancelCount tr + if e.isCancel then 1 else 0 := by
  cases h : e.isCancel <;> simp [cancelCount, List.filter_append, List.filter, h]

/-- Steps other than those of the `handle` goroutine leave its position, its
locals and the closed flags alone, add at most a `cancel` to the trace, start
no goroutine, and end one only with `ctx` cancelled. -/
theorem Session.step_other (env : Env) (s : Session) (a : Action) (ha : a ≠ .main) :
    (Session.step env s a).pc = s.pc ∧ (Session.step env s a).conn = s.conn
      ∧ (Session.step env s a).tconn = s.tconn ∧ (Session.step env s a).addr = s.addr
      ∧ (((Session.step env s a).trace = s.trace ∧ (Session.step env s a).ctxDone = s.ctxDone)
         ∨ ∃ d, (Session.step env s a).trace = s.trace ++ [Event.cancel d]
              ∧ (Session.step env s a).ctxDone = true ∧ s.task d = .copied) := by
  cases a with
  | main => exact absurd rfl ha
  | copyRead d n =>
    cases d <;> simp only [Session.step, Session.copyRead] <;> split <;>
      simp [Session.setWire, Session.setBuf, Dir.src]
  | copyWrite d =>
    cases d <;> simp only [Session.step, Session.copyWrite] <;> split <;>
      simp [Session.setWire, Session.setBuf, Dir.dst]
  | copyReturns d =>
    cases d <;> simp only [Session.step, Session.setTask] <;> split <;> simp
  | task d =>
    cases d <;> simp only [Session.step, Session.setTask] <;> split <;> simp_all
  | inboundSends bs => simp [Session.step]
  | upstreamSends bs => simp only [Session.step]; split <;> simp

/-- Steps other than those of the `handle` goroutine start no copy goroutine,
and end one only with `ctx` cancelled. -/
theorem Session.step_other_tasks (env : Env) (s : Session) (a : Action) (ha : a ≠ .main) :
    ((Session.step env s a).taskIn = .notStarted ↔ s.taskIn = .notStarted)
      ∧ ((Session.step env s a).taskUp = .notStarted ↔ s.taskUp = .notStarted)
      ∧ ((Session.step env s a).taskIn = .finished →
          s.taskIn = .finished ∨ (Session.step env s a).ctxDone = true)
      ∧ ((Session.step env s a).taskUp = .finished →
          s.taskUp = .finished ∨ (Session.step env s a).ctxDone = true) := by
  cases a with
  | main => exact absurd rfl ha
  | copyRead d n =>
    cases d <;> simp only [Session.step, Session.copyRead] <;> split <;>
      exact ⟨Iff.rfl, Iff.rfl, Or.inl, Or.inl⟩
  | copyWrite d =>
    cases d <;> simp only [Session.step, Session.copyWrite] <;> split <;>
      exact ⟨Iff.rfl, Iff.rfl, Or.inl, Or.inl⟩
  | copyReturns d =>
    cases d <;> simp only [Session.step, Session.setTask, Session.task] <;> split <;> simp_all
  | task d =>
    cases d <;> simp only [Session.step, Session.setTask, Session.task] <;> split <;> simp_all
  | inboundSends bs => exact ⟨Iff.rfl, Iff.rfl, Or.inl, Or.inl⟩
  | upstreamSends bs =>
    simp only [Session.step]; split <;> exact ⟨Iff.rfl, Iff.rfl, Or.inl, Or.inl⟩

/-! ### Sessions whose dial succeeds -/

theorem Session.invOk_init (conn t : Nat) : (Session.init conn).InvOk conn t := by
  constructor <;> simp [Session.init, closeCount, cancelCount]

theorem Session.invOk_step (env : Env) (conn t : Nat)
    (hd : env.dial "tcp" (upstreamAddr env) = .ok t) (s : Session) (a : Action)
    (h : s.InvOk conn t) : (Session.step env s a).InvOk conn t := by
  by_cases ha : a = .main
  · subst ha
    obtain ⟨h1, h2, h3, h4, h5, h6, h7, h8⟩ := h
    cases hpc : s.pc with
    | dialing =>
      constructor <;>
        simp_all [Session.step, handle, closeCount_snoc, cancelCount_snoc, Event.isCancel]
    | dialFailed e => exact absurd hpc (h3 e)
    | spawnFirst =>
      constructor <;>
        simp_all [Session.step, handle, closeCount_snoc, cancelCount_snoc, Event.isCancel]
    | spawnSecond =>
      constructor <;>
        simp_all [Session.step, handle, closeCount_snoc, cancelCount_snoc, Event.isCancel]
    | waiting =>
      cases hc : s.ctxDone <;> constructor <;>
        simp_all [Session.step, handle, closeCount_snoc, cancelCount_snoc, Event.isCancel]
    | closeOut =>
      have ht : s.tconn = some t := h4 (by simp [hpc])
      constructor <;>
        simp_all [Session.step, handle, closeCount_snoc, cancelCount_snoc, Event.isCancel]
      intro c hc1 _ hc3
      exact hc1 hc3.symm
    | closeIn =>
      constructor <;>
        simp_all [Session.step, handle, closeCount_snoc, cancelCount_snoc, Event.isCancel]
      intro c _ hc2 hc3
      exact hc2 hc3.symm
    | returned =>
      constructor <;>
        simp_all [Session.step, handle, closeCount_snoc, cancelCount_snoc, Event.isCancel]
  · obtain ⟨e1, e2, e3, _, e5⟩ := Session.step_other env s a ha
    obtain ⟨k1, k2, k3, k4⟩ := Session.step_other_tasks env s a ha
    obtain ⟨h1, h2, h3, h4, h5, h6, h7, h8, h9, h10, h11⟩ := h
    have hfin : (Session.step env s a).taskIn = .finished
        ∨ (Session.step env s a).taskUp = .finished → (Session.step env s a).ctxDone = true := by
      intro hf
      rcases e5 with ⟨_, e6⟩ | ⟨d, _, e6, _⟩
      · rw [e6]
        rcases hf with hf | hf
        · rcases k3 hf with h | h
          · exact h11 (Or.inl h)
          · rw [← e6]; exact h
        · rcases k4 hf with h | h
          · exact h11 (Or.inr h)
          · rw [← e6]; exact h
      · exact e6
    refine ⟨?_, ?_, ?_, ?_, ?_, ?_, ?_, ?_, ?_, ?_, hfin⟩
    · rw [e2]; exact h1
    · rcases e5 with ⟨e5, e6⟩ | ⟨d, e5, e6, _⟩
      · rw [e5, e6]; exact h2
      · rw [e5, e6]; simp [cancelCount_snoc, Event.isCancel]
    · intro e; rw [e1]; exact h3 e
    · rw [e1, e3]; exact h4
    · rw [e1]
      intro hp
      rcases e5 with ⟨_, e6⟩ | ⟨d, _, e6, _⟩
      · rw [e6]; exact h5 hp
      · exact e6
    · rcases e5 with ⟨e5, _⟩ | ⟨d, e5, _, _⟩
      · rw [e1, e5]; exact h6
      · rw [e1, e5, closeCount_snoc]; simpa using h6
    · rcases e5 with ⟨e5, _⟩ | ⟨d, e5, _, _⟩
      · rw [e1, e5]; exact h7
      · rw [e1, e5, closeCount_snoc]; simpa using h7
    · intro c hc1 hc2
      rcases e5 with ⟨e5, _⟩ | ⟨d, e5, _, _⟩
      · rw [e5]; exact h8 c hc1 hc2
      · rw [e5, closeCount_snoc]; simpa using h8 c hc1 hc2
    · rw [e1]; exact fun hp hn => h9 hp (k1.mp hn)
    · rw [e1]; exact fun hp hn => h10 hp (k2.mp hn)

theorem Session.invOk_run (env : Env) (conn t : Nat)
    (hd : env.dial "tcp" (upstreamAddr env) = .ok t) (sched : List Action) :
    (Session.run env (Session.init conn) sched).InvOk conn t :=
  Session.run_invariant env (Session.InvOk conn t) (fun s a => Session.invOk_step env conn t hd s a)
    _ (Session.invOk_init conn t) sched

theorem Session.returned_step (env : Env) (s : Session) (a : Action) (h : s.pc = .returned) :
    (Session.step env s a).pc = .returned := by
  by_cases ha : a = .main
  · subst ha
    simp [Session.step, handle, h]
  · rw [(Session.step_other env s a ha).1, h]

theorem Session.returned_run (env : Env) (s : Session) (sched : List Action)
    (h : s.pc = .returned) : (Session.run env s sched).pc = .returned :=
  Session.run_invariant env (fun s => s.pc = .returned)
    (fun s a hs => Session.returned_step env s a hs) s h sched

theorem Session.mains_reach_returned (env : Env) (conn t : Nat)
    (hd : env.dial "tcp" (upstreamAddr env) = .ok t) (s : Session) (h : s.InvOk conn t)
    (hc : s.ctxDone = true) :
    (Session.run env s (List.replicate 6 .main)).pc = .returned := by
  obtain ⟨_, _, h3, h4, _, _, _, _⟩ := h
  cases hpc : s.pc with
  | dialFailed e => exact absurd hpc (h3 e)
  | dialing =>
    simp [Session.run, List.replicate, Session.step, handle, hpc, hd, hc]
  | spawnFirst =>
    have ht : s.tconn = some t := h4 (by simp [hpc])
    simp [Session.run, List.replicate, Session.step, handle, hpc, hc, ht]
  | spawnSecond =>
    have ht : s.tconn = some t := h4 (by simp [hpc])
    simp [Session.run, List.replicate, Session.step, handle, hpc, hc, ht]
  | waiting =>
    have ht : s.tconn = some t := h4 (by simp [hpc])
    simp [Session.run, List.replicate, Session.step, handle, hpc, hc, ht]
  | closeOut =>
    have ht : s.tconn = some t := h4 (by simp [hpc])
    simp [Session.run, List.replicate, Session.step, handle, hpc, hc, ht]
  | closeIn =>
    simp [Session.run, List.replicate, Session.step, handle, hpc]
  | returned =>
    simp [Session.run, List.replicate, Session.step, handle, hpc]

theorem Session.invOk_run_from (env : Env) (conn t : Nat)
    (hd : env.dial "tcp" (upstreamAddr env) = .ok t) (s : Session) (h : s.InvOk conn t)
    (sched : List Action) : (Session.run env s sched).InvOk conn t :=
  Session.run_invariant env (Session.InvOk conn t)
    (fun s a => Session.invOk_step env conn t hd s a) s h sched

/-- Three steps of `handle` take it to line 88 at least. -/
theorem Session.reach_waiting (env : Env) (conn t : Nat)
    (hd : env.dial "tcp" (upstreamAddr env) = .ok t) (s : Session) (h : s.InvOk conn t) :
    (Session.run env s [.main, .main, .main]).pc = .waiting
      ∨ (Session.run env s [.main, .main, .main]).pc = .closeOut
      ∨ (Session.run env s [.main, .main, .main]).pc = .closeIn
      ∨ (Session.run env s [.main, .main, .main]).pc = .returned := by
  have h3 := h.not_failed
  have h4 := h.tconn_eq
  cases hpc : s.pc with
  | dialFailed e => exact absurd hpc (h3 e)
  | dialing => simp [Session.run, Session.step, handle, hpc, hd]
  | spawnFirst =>
    cases hc : s.ctxDone <;> simp [Session.run, Session.step, handle, hpc, hc]
  | spawnSecond =>
    have ht : s.tconn = some t := h4 (by simp [hpc])
    cases hc : s.ctxDone <;> simp [Session.run, Session.step, handle, hpc, hc, ht]
  | waiting =>
    have ht : s.tconn = some t := h4 (by simp [hpc])
    cases hc : s.ctxDone <;> simp [Session.run, Session.step, handle, hpc, hc, ht]
  | closeOut =>
    have ht : s.tconn = some t := h4 (by simp [hpc])
    simp [Session.run, Session.step, handle, hpc, ht]
  | closeIn => simp [Session.run, Session.step, handle, hpc]
  | returned => simp [Session.run, Session.step, handle, hpc]

/-- Once `handle` stands at line 88 or later, the return of the `io.Copy` of
either goroutine followed by its `cancel()` leaves `ctx` cancelled. -/
theorem Session.signal_cancels (env : Env) (conn t : Nat) (s : Session) (h : s.InvOk conn t)
    (d : Dir)
    (hp : s.pc = .waiting ∨ s.pc = .closeOut ∨ s.pc = .closeIn ∨ s.pc = .returned) :
    (Session.run env s [.copyReturns d, .task d]).ctxDone = true
      ∧ (Session.run env s [.copyReturns d, .task d]).pc = s.pc := by
  have hin : s.taskIn ≠ .notStarted := h.in_started (Or.inr hp)
  have hup : s.taskUp ≠ .notStarted := h.up_started hp
  have hfin := h.finished_done
  cases d with
  | toInbound =>
    cases ht : s.taskIn with
    | notStarted => exact absurd ht hin
    | copying => simp [Session.run, Session.step, Session.task, Session.setTask, ht]
    | copied => simp [Session.run, Session.step, Session.task, Session.setTask, ht]
    | finished =>
      have := hfin (Or.inl ht)
      simp [Session.run, Session.step, Session.task, Session.setTask, ht, this]
  | toUpstream =>
    cases ht : s.taskUp with
    | notStarted => exact absurd ht hup
    | copying => simp [Session.run, Session.step, Session.task, Session.setTask, ht]
    | copied => simp [Session.run, Session.step, Session.task, Session.setTask, ht]
    | finished =>
      have := hfin (Or.inr ht)
      simp [Session.run, Session.step, Session.task, Session.setTask, ht, this]

/-- From line 88 on and with `ctx` cancelled, three steps of `handle` make it
return. -/
theorem Session.three_steps_return (env : Env) (conn t : Nat) (s : Session)
    (h : s.InvOk conn t) (hc : s.ctxDone = true)
    (hp : s.pc = .waiting ∨ s.pc = .closeOut ∨ s.pc = .closeIn ∨ s.pc = .returned) :
    (Session.run env s [.main, .main, .main]).pc = .returned := by
  have h4 := h.tconn_eq
  rcases hp with hp | hp | hp | hp
  · have ht : s.tconn = some t := h4 (by simp [hp])
    simp [Session.run, Session.step, handle, hp, hc, ht]
  · have ht : s.tconn = some t := h4 (by simp [hp])
    simp [Session.run, Session.step, handle, hp, ht]
  · simp [Session.run, Session.step, handle, hp]
  · simp [Session.run, Session.step, handle, hp]

/-- Whatever happened before, the schedule `finishFirst d` makes `handle`
return. -/
theorem Session.finishFirst_returns (env : Env) (conn t : Nat)
    (hd : env.dial "tcp" (upstreamAddr env) = .ok t) (s : Session) (h : s.InvOk conn t)
    (d : Dir) : (Session.run env s (finishFirst d)).pc = .returned := by
  have hsplit : finishFirst d
      = [.main, .main, .main] ++ ([.copyReturns d, .task d] ++ [.main, .main, .main]) := rfl
  rw [hsplit, Session.run_append, Session.run_append]
  have h1 := Session.invOk_run_from env conn t hd s h [.main, .main, .main]
  have p1 := Session.reach_waiting env conn t hd s h
  have h2 := Session.invOk_run_from env conn t hd _ h1 [.copyReturns d, .task d]
  obtain ⟨c2, p2⟩ := Session.signal_cancels env conn t _ h1 d p1
  exact Session.three_steps_return env conn t _ h2 c2 (by rw [p2]; exact p1)

/-- C2: in a session whose dial succeeded with connection `t`, whatever the
schedule (so for either order in which the two copy goroutines end): each of
the two connections has been closed at most once; nothing is closed before a
copy goroutine has signalled completion; once `handle` has returned each
connection has been closed exactly once, and this stays so along every
continuation, so a later signal closes nothing; no other connection is ever
closed; once a goroutine has signalled, six steps of `handle` are enough for
it to return.  And the closes do happen: whatever went before, when `handle`
is given three steps, the `io.Copy` of either goroutine returns, the
goroutine calls `cancel()` and `handle` is given three more steps, `handle`
has returned and each connection has been closed exactly once.  From the
start, the two orders give the traces written out below: both `go`
statements, the signal of the first goroutine, the close of `tconn`, the
close of `conn`, and the signal of the other goroutine wherever it falls. -/
theorem handle_closes_both_exactly_once (env : Env) (conn t : Nat)
    (hd : env.dial "tcp" (upstreamAddr env) = .ok t) (sched : List Action) :
    closeCount (.dialed t) (Session.run env (Session.init conn) sched).trace ≤ 1
      ∧ closeCount (.accepted conn) (Session.run env (Session.init conn) sched).trace ≤ 1
      ∧ (0 < closeCount (.dialed t) (Session.run env (Session.init conn) sched).trace
            + closeCount (.accepted conn) (Session.run env (Session.init conn) sched).trace
          → 0 < cancelCount (Session.run env (Session.init conn) sched).trace)
      ∧ ((Session.run env (Session.init conn) sched).pc = .returned →
          ∀ more : List Action,
            (Session.run env (Session.init conn) (sched ++ more)).pc = .returned
            ∧ closeCount (.dialed t) (Session.run env (Session.init conn) (sched ++ more)).trace = 1
            ∧ closeCount (.accepted conn)
                (Session.run env (Session.init conn) (sched ++ more)).trace = 1)
      ∧ (∀ c, c ≠ .dialed t → c ≠ .accepted conn →
          closeCount c (Session.run env (Session.init conn) sched).trace = 0)
      ∧ (0 < cancelCount (Session.run env (Session.init conn) sched).trace →
          (Session.run env (Session.init conn) (sched ++ List.replicate 6 .main)).pc
            = .returned)
      ∧ (∀ d : Dir,
          (Session.run env (Session.init conn) (sched ++ finishFirst d)).pc = .returned
          ∧ closeCount (.dialed t)
              (Session.run env (Session.init conn) (sched ++ finishFirst d)).trace = 1
          ∧ closeCount (.accepted conn)
              (Session.run env (Session.init conn) (sched ++ finishFirst d)).trace = 1
          ∧ 0 < cancelCount (Session.run env (Session.init conn) (sched ++ finishFirst d)).trace)
      ∧ (Session.run env (Session.init conn) inboundFirst).trace
          = [.dial "tcp" (upstreamAddr env), .goCopy .toInbound, .goCopy .toUpstream,
             .cancel .toInbound, .cancel .toUpstream,
             .closeConn (.dialed t), .closeConn (.accepted conn)]
      ∧ (Session.run env (Session.init conn) upstreamFirst).trace
          = [.dial "tcp" (upstreamAddr env), .goCopy .toInbound, .goCopy .toUpstream,
             .cancel .toUpstream, .closeConn (.dialed t), .closeConn (.accepted conn),
             .cancel .toInbound] := by
  have hinv := Session.invOk_run env conn t hd sched
  obtain ⟨_, h2, _, _, h5, h6, h7, h8, _, _, _⟩ := hinv
  refine ⟨?_, ?_, ?_, ?_, h8, ?_, ?_, ?_, ?_⟩
  · rw [h6]; split <;> omega
  · rw [h7]; split <;> omega
  · intro hpos
    rw [← h2]
    apply h5
    rw [h6, h7] at hpos
    by_cases hr : (Session.run env (Session.init conn) sched).pc = .returned
    · exact Or.inr (Or.inr hr)
    · by_cases hi : (Session.run env (Session.init conn) sched).pc = .closeIn
      · exact Or.inr (Or.inl hi)
      · simp [hr, hi] at hpos
  · intro hr more
    have hr2 : (Session.run env (Session.init conn) (sched ++ more)).pc = .returned := by
      rw [Session.run_append]
      exact Session.returned_run env _ more hr
    have hinv2 := Session.invOk_run env conn t hd (sched ++ more)
    refine ⟨hr2, ?_, ?_⟩
    · rw [hinv2.out_count]; simp [hr2]
    · rw [hinv2.in_count]; simp [hr2]
  · intro hpos
    rw [Session.run_append]
    exact Session.mains_reach_returned env conn t hd _ (Session.invOk_run env conn t hd sched)
      (h2.mpr hpos)
  · intro d
    have hr : (Session.run env (Session.init conn) (sched ++ finishFirst d)).pc = .returned := by
      rw [Session.run_append]
      exact Session.finishFirst_returns env conn t hd _
        (Session.invOk_run env conn t hd sched) d
    have hinv2 := Session.invOk_run env conn t hd (sched ++ finishFirst d)
    refine ⟨hr, ?_, ?_, ?_⟩
    · rw [hinv2.out_count]; simp [hr]
    · rw [hinv2.in_count]; simp [hr]
    · rw [← hinv2.done_iff]
      exact hinv2.past_wait (Or.inr (Or.inr hr))
  · simp [Session.run, inboundFirst, Session.step, handle, Session.init, hd, Session.task,
      Session.setTask]
  · simp [Session.run, upstreamFirst, Session.step, handle, Session.init, hd, Session.task,
      Session.setTask]

/-- C2, at concrete inputs: with either copy goroutine ending first, both
connections end up closed exactly once and `handle` has returned. -/
theorem handle_closes_both_exactly_once_witness :
    ((Session.run reachableEnv (Session.init 1) inboundFirst).pc = .returned
      ∧ closeCount (.dialed 7) (Session.run reachableEnv (Session.init 1) inboundFirst).trace = 1
      ∧ closeCount (.accepted 1) (Session.run reachableEnv (Session.init 1) inboundFirst).trace = 1)
    ∧ ((Session.run reachableEnv (Session.init 1) upstreamFirst).pc = .returned
      ∧ closeCount (.dialed 7) (Session.run reachableEnv (Session.init 1) upstreamFirst).trace = 1
      ∧ closeCount (.accepted 1)
          (Session.run reachableEnv (Session.init 1) upstreamFirst).trace = 1) := by
  have ha := (handle_closes_both_exactly_once reachableEnv 1 7 rfl inboundFirst).2.2.2.1
    (by rfl) []
  have hb := (handle_closes_both_exactly_once reachableEnv 1 7 rfl upstreamFirst).2.2.2.1
    (by rfl) []
  simp only [List.append_nil] at ha hb
  exact ⟨ha, hb⟩

/-! ### Sessions whose dial fails -/

theorem Session.invFail_init (env : Env) (conn : Nat) (err : GoError) :
    (Session.init conn).InvFail env conn err := by
  constructor <;> simp [Session.init]

theorem Session.invFail_step (env : Env) (conn : Nat) (err : GoError)
    (hd : env.dial "tcp" (upstreamAddr env) = .error err) (s : Session) (a : Action)
    (h : s.InvFail env conn err) :
    (Session.step env s a).InvFail env conn err
      ∧ (Session.step env s a).pc.stepsLeft
          = if a = .main then s.pc.stepsLeft - 1 else s.pc.stepsLeft := by
  obtain ⟨h1, h2, h3, hn, h4⟩ := h
  by_cases ha : a = .main
  · subst ha
    rcases h4 with ⟨hp, ht⟩ | ⟨hp, hq, ht⟩ | ⟨hp, ht⟩ | ⟨hp, ht⟩
    · refine ⟨⟨?_, ?_, ?_, ?_, ?_⟩, ?_⟩ <;>
        simp_all [Session.step, handle, failureTrace, HandlePc.stepsLeft]
    · refine ⟨⟨?_, ?_, ?_, ?_, ?_⟩, ?_⟩ <;>
        simp_all [Session.step, handle, failureTrace, HandlePc.stepsLeft,
          dialFailedText, sprintf_dialFailed]
    · refine ⟨⟨?_, ?_, ?_, ?_, ?_⟩, ?_⟩ <;>
        simp_all [Session.step, handle, failureTrace, HandlePc.stepsLeft]
    · refine ⟨⟨?_, ?_, ?_, ?_, ?_⟩, ?_⟩ <;>
        simp_all [Session.step, handle, failureTrace, HandlePc.stepsLeft]
  · obtain ⟨e1, e2, e3, e4, e5⟩ := Session.step_other env s a ha
    have ht : (Session.step env s a).trace = s.trace := by
      rcases e5 with ⟨e5, _⟩ | ⟨d, _, _, e7⟩
      · exact e5
      · cases d <;> simp [Session.task, h2, h3] at e7
    have hk : (Session.step env s a).taskIn = .notStarted
        ∧ (Session.step env s a).taskUp = .notStarted := by
      cases a with
      | main => exact absurd rfl ha
      | copyRead d n =>
        cases d <;> simp [Session.step, Session.copyRead, Session.task, h2, h3]
      | copyWrite d =>
        cases d <;> simp [Session.step, Session.copyWrite, Session.task, h2, h3]
      | copyReturns d =>
        cases d <;> simp [Session.step, Session.task, h2, h3]
      | task d =>
        cases d <;> simp [Session.step, Session.task, h2, h3]
      | inboundSends bs => simp [Session.step, h2, h3]
      | upstreamSends bs => simp only [Session.step]; split <;> simp [h2, h3]
    refine ⟨⟨by rw [e2, h1], hk.1, hk.2, by rw [e3, hn], ?_⟩, by simp [ha, e1]⟩
    rw [e1, e4, ht]
    exact h4

theorem Session.invFail_run (env : Env) (conn : Nat) (err : GoError)
    (hd : env.dial "tcp" (upstreamAddr env) = .error err) (sched : List Action) (s : Session)
    (h : s.InvFail env conn err) :
    (Session.run env s sched).InvFail env conn err
      ∧ (Session.run env s sched).pc.stepsLeft = s.pc.stepsLeft - sched.count .main := by
  induction sched generalizing s with
  | nil => exact ⟨h, by simp [Session.run]⟩
  | cons a rest ih =>
    obtain ⟨hi, hs⟩ := Session.invFail_step env conn err hd s a h
    obtain ⟨hi2, hs2⟩ := ih _ hi
    refine ⟨hi2, ?_⟩
    have hrun : Session.run env s (a :: rest) = Session.run env (Session.step env s a) rest := rfl
    rw [hrun, hs2, hs]
    by_cases ha : a = .main
    · subst ha
      simp [List.count_cons]
      omega
    · have : (a == Action.main) = false := by simpa using ha
      simp [ha, List.count_cons, this]

/-- C3: in a session whose dial fails with `err`, whatever the schedule, the
trace is an initial part of: one dial of the upstream address, one printed
line `dial <addr> failed with:<err>`, one close of the inbound connection;
no copy goroutine is started (and so no events of theirs and no close of an
outbound connection exist); and as soon as the goroutine of `handle` has been
given three steps the trace is that whole sequence and `handle` has
returned. -/
theorem handle_dial_failure (env : Env) (conn : Nat) (err : GoError)
    (hd : env.dial "tcp" (upstreamAddr env) = .error err) (sched : List Action) :
    (Session.run env (Session.init conn) sched).trace <+: failureTrace env conn err
      ∧ (Session.run env (Session.init conn) sched).taskIn = .notStarted
      ∧ (Session.run env (Session.init conn) sched).taskUp = .notStarted
      ∧ (Session.run env (Session.init conn) sched).tconn = none
      ∧ (3 ≤ sched.count .main →
          (Session.run env (Session.init conn) sched).pc = .returned
          ∧ (Session.run env (Session.init conn) sched).trace = failureTrace env conn err) := by
  obtain ⟨⟨_, h2, h3, hn, h4⟩, hs⟩ :=
    Session.invFail_run env conn err hd sched (Session.init conn)
      (Session.invFail_init env conn err)
  refine ⟨?_, h2, h3, ?_, ?_⟩
  · rcases h4 with ⟨_, ht⟩ | ⟨_, _, ht⟩ | ⟨_, ht⟩ | ⟨_, ht⟩
    · rw [ht]; exact List.nil_prefix
    · rw [ht]; exact List.take_prefix _ _
    · rw [ht]; exact List.take_prefix _ _
    · rw [ht]
  · exact hn
  · intro h3m
    have h0 : (Session.run env (Session.init conn) sched).pc.stepsLeft = 0 := by
      rw [hs]; simp [Session.init, HandlePc.stepsLeft]; omega
    rcases h4 with ⟨hp, _⟩ | ⟨hp, _, _⟩ | ⟨hp, _⟩ | ⟨hp, ht⟩
    · rw [hp] at h0; simp [HandlePc.stepsLeft] at h0
    · rw [hp] at h0; simp [HandlePc.stepsLeft] at h0
    · rw [hp] at h0; simp [HandlePc.stepsLeft] at h0
    · exact ⟨hp, ht⟩

/-- C3, at a concrete input: the upstream refuses the dial and `handle` gets
its three steps. -/
theorem handle_dial_failure_witness :
    (Session.run unreachableEnv (Session.init 1) [.main, .main, .main]).pc = .returned
      ∧ (Session.run unreachableEnv (Session.init 1) [.main, .main, .main]).trace
          = failureTrace unreachableEnv 1 ⟨"connection refused", true, false⟩ :=
  (handle_dial_failure unreachableEnv 1 ⟨"connection refused", true, false⟩ rfl
    [.main, .main, .main]).2.2.2.2 (by decide)

/-! ### The dialled address -/

theorem dialCalls_snoc (tr : List Event) (e : Event) :
    dialCalls (tr ++ [e]) = dialCalls tr ++ dialCalls [e] := by
  induction tr with
  | nil => rfl
  | cons x xs ih => cases x <;> simp [dialCalls, ih]

theorem Session.dialCalls_step (env : Env) (s : Session) (a : Action)
    (h : dialCalls s.trace = if s.pc = .dialing then [] else [("tcp", upstreamAddr env)]) :
    dialCalls (Session.step env s a).trace
      = if (Session.step env s a).pc = .dialing then [] else [("tcp", upstreamAddr env)] := by
  by_cases ha : a = .main
  · subst ha
    cases hpc : s.pc with
    | dialing =>
      cases hd : env.dial "tcp" (upstreamAddr env) <;>
        simp_all [Session.step, handle, dialCalls_snoc, dialCalls]
    | waiting =>
      cases hc : s.ctxDone <;>
        simp_all [Session.step, handle, dialCalls_snoc, dialCalls]
    | closeOut =>
      cases ht : s.tconn <;>
        simp_all [Session.step, handle, dialCalls_snoc, dialCalls]
    | dialFailed e => simp_all [Session.step, handle, dialCalls_snoc, dialCalls]
    | spawnFirst => simp_all [Session.step, handle, dialCalls_snoc, dialCalls]
    | spawnSecond => simp_all [Session.step, handle, dialCalls_snoc, dialCalls]
    | closeIn => simp_all [Session.step, handle, dialCalls_snoc, dialCalls]
    | returned => simp_all [Session.step, handle, dialCalls_snoc, dialCalls]
  · obtain ⟨e1, _, _, _, e5⟩ := Session.step_other env s a ha
    rcases e5 with ⟨e5, _⟩ | ⟨d, e5, _, _⟩
    · rw [e1, e5]; exact h
    · rw [e1, e5, dialCalls_snoc, h]; simp [dialCalls]

theorem Session.not_dialing_step (env : Env) (s : Session) (a : Action) (h : s.pc ≠ .dialing) :
    (Session.step env s a).pc ≠ .dialing := by
  by_cases ha : a = .main
  · subst ha
    cases hpc : s.pc with
    | dialing => exact absurd hpc h
    | waiting => cases hc : s.ctxDone <;> simp [Session.step, handle, hpc, hc]
    | closeOut => cases ht : s.tconn <;> simp [Session.step, handle, hpc, ht]
    | dialFailed e => simp [Session.step, handle, hpc]
    | spawnFirst => simp [Session.step, handle, hpc]
    | spawnSecond => simp [Session.step, handle, hpc]
    | closeIn => simp [Session.step, handle, hpc]
    | returned => simp [Session.step, handle, hpc]
  · rw [(Session.step_other env s a ha).1]; exact h

/-- C9: whatever the environment, the connection and the schedule, the
`net.Dial` calls of a session are none before the first step of `handle` and
from that step on exactly one, on network `tcp`, to the address
`ws-proxy.` ++ KUBE_NAMESPACE ++ `.` ++ KUBE_DOMAIN ++ `:2200`, where the two
values are whatever `os.Getenv` returns, inserted as they are. -/
theorem handle_dials_formatted_address (env : Env) (conn : Nat) (sched : List Action) :
    upstreamAddr env
        = "ws-proxy." ++ env.getenv "KUBE_NAMESPACE" ++ "." ++ env.getenv "KUBE_DOMAIN" ++ ":2200"
      ∧ dialCalls (Session.run env (Session.init conn) sched).trace
          <+: [("tcp", "ws-proxy." ++ env.getenv "KUBE_NAMESPACE" ++ "."
                  ++ env.getenv "KUBE_DOMAIN" ++ ":2200")]
      ∧ dialCalls (Session.run env (Session.init conn) (.main :: sched)).trace
          = [("tcp", "ws-proxy." ++ env.getenv "KUBE_NAMESPACE" ++ "."
                  ++ env.getenv "KUBE_DOMAIN" ++ ":2200")] := by
  have haddr : upstreamAddr env
      = "ws-proxy." ++ env.getenv "KUBE_NAMESPACE" ++ "." ++ env.getenv "KUBE_DOMAIN" ++ ":2200" :=
    sprintf_addr _ _
  have hinv : ∀ sch, dialCalls (Session.run env (Session.init conn) sch).trace
      = if (Session.run env (Session.init conn) sch).pc = .dialing then []
        else [("tcp", upstreamAddr env)] := fun sch =>
    Session.run_invariant env
      (fun s => dialCalls s.trace = if s.pc = .dialing then [] else [("tcp", upstreamAddr env)])
      (fun s a hs => Session.dialCalls_step env s a hs) _ (by simp [Session.init, dialCalls]) sch
  refine ⟨haddr, ?_, ?_⟩
  · rw [hinv sched, ← haddr]
    split
    · exact List.nil_prefix
    · exact List.prefix_refl _
  · have hnd : (Session.run env (Session.init conn) (.main :: sched)).pc ≠ .dialing := by
      have h1 : (Session.step env (Session.init conn) .main).pc ≠ .dialing := by
        cases hd : env.dial "tcp" (upstreamAddr env) <;>
          simp [Session.step, handle, Session.init, hd]
      exact Session.run_invariant env (fun s => s.pc ≠ .dialing)
        (fun s a hs => Session.not_dialing_step env s a hs) _ h1 sched
    rw [hinv (.main :: sched), if_neg hnd, haddr]

/-! ### The bytes relayed -/

/-- C5: whatever the tunnel and the outcome of the listen, the trace of
`Start` has exactly one `caddy.Listen` call, on network `tcp` and address
`:2200`; when that call fails `Start` returns its error, leaves the tunnel as
it was and launches no accept loop; when it succeeds `Start` stores the new
listener in the tunnel, launches exactly one accept loop and returns no
error. -/
theorem start_listens_once (listen : String → String → Except GoError Listener)
    (s : SSHTunnel) :
    listenCalls (Start listen s).trace = [("tcp", ":2200")]
      ∧ (∀ err, listen "tcp" ":2200" = .error err →
          (Start listen s).err = some err ∧ (Start listen s).tunnel = s
          ∧ serveLaunches (Start listen s).trace = 0)
      ∧ (∀ ln, listen "tcp" ":2200" = .ok ln →
          (Start listen s).err = none ∧ (Start listen s).tunnel.listener = some ln
          ∧ serveLaunches (Start listen s).trace = 1
          ∧ (Start listen s).trace
              = [.listen "tcp" ":2200", .goServe, .print "ssh tunnel is running\n"]) := by
  refine ⟨?_, ?_, ?_⟩
  · cases h : listen "tcp" ":2200" <;> simp [Start, h, listenCalls]
  · intro err h
    simp [Start, h, serveLaunches]
  · intro ln h
    simp [Start, h, serveLaunches]

/-- C7: on a tunnel on which `Start` has succeeded with listener `ln`, `Stop`
does not panic, calls `Close()` once, on `ln`, and returns what that call
returned: its error when it failed, no error when it succeeded.  The tunnel
is left as it was. -/
theorem stop_returns_close_error (listen : String → String → Except GoError Listener)
    (close : Listener → Option GoError) (s : SSHTunnel) (ln : Listener)
    (h : listen "tcp" ":2200" = .ok ln) :
    Stop close (Start listen s).tunnel
      = some { tunnel := (Start listen s).tunnel, err := close ln,
               trace := [.closeListener ln] }
      ∧ listenerCloses [Event.closeListener ln] = [ln] := by
  refine ⟨?_, rfl⟩
  cases hc : close ln <;> simp [Start, Stop, h, hc]

/-- C7, at concrete inputs: a close that fails and a close that succeeds. -/
theorem stop_returns_close_error_witness :
    Stop (fun _ => some errClosed) (Start (fun _ _ => .ok 3) ⟨none⟩).tunnel
        = some { tunnel := ⟨some 3⟩, err := some errClosed, trace := [.closeListener 3] }
      ∧ Stop (fun _ => none) (Start (fun _ _ => .ok 3) ⟨none⟩).tunnel
        = some { tunnel := ⟨some 3⟩, err := none, trace := [.closeListener 3] } :=
  ⟨(stop_returns_close_error (fun _ _ => .ok 3) (fun _ => some errClosed) ⟨none⟩ 3 rfl).1,
   (stop_returns_close_error (fun _ _ => .ok 3) (fun _ => none) ⟨none⟩ 3 rfl).1⟩

/-! ### The process: listeners -/

theorem World.OneLive.of_same {w w2 : World} {free : Bool} (h : w.OneLive free)
    (hl : w2.live = w.live) (ht : w2.tunnel = w.tunnel) (hc : w2.crashed = w.crashed) :
    w2.OneLive free := by
  obtain ⟨h1, h2, h3, h4⟩ := h
  exact ⟨by rw [hl, ht]; exact h1, by rw [hl]; exact h2, by rw [hl]; exact h3,
    by rw [hl, hc]; exact h4⟩

theorem World.OneLive.of_nil {w : World} (free : Bool) (hl : w.live = []) : w.OneLive free :=
  ⟨by simp [hl], by simp [hl], fun _ => hl, fun _ => hl⟩

theorem World.OneLive.nil_of_none {w : World} {free : Bool} (h : w.OneLive free)
    (hl : w.tunnel.listener = none) : w.live = [] := by
  cases hlive : w.live with
  | nil => rfl
  | cons x xs =>
    have := h.stored x (by simp [hlive])
    rw [hl] at this
    exact absurd this (by simp)

theorem World.oneLive_step (env : Env) (w : World) (free : Bool) (c : Call) (cs : List Call)
    (h : w.OneLive free) (hs : startsApart free (c :: cs) = true) :
    ∃ free2, (World.step env w c).OneLive free2 ∧ startsApart free2 cs = true := by
  by_cases hcr : w.crashed = true
  · have hsame : World.step env w c = w := by simp [World.step, hcr]
    have hnil := h.crashedNone hcr
    rw [hsame]
    cases c with
    | start e =>
      cases e with
      | none =>
        simp [startsApart] at hs
        exact ⟨false, World.OneLive.of_nil false hnil, hs.2⟩
      | some e => exact ⟨free, h, by simpa [startsApart] using hs⟩
    | stop e =>
      cases e with
      | none => exact ⟨true, World.OneLive.of_nil true hnil, by simpa [startsApart] using hs⟩
      | some e => exact ⟨free, h, by simpa [startsApart] using hs⟩
    | loop i r => exact ⟨free, h, by simpa [startsApart] using hs⟩
    | session i a => exact ⟨free, h, by simpa [startsApart] using hs⟩
  · cases c with
    | start e =>
      cases e with
      | none =>
        simp [startsApart] at hs
        have hnil := h.freeNone hs.1
        refine ⟨false, ⟨?_, ?_, by simp, ?_⟩, hs.2⟩ <;>
          simp [World.step, hcr, Start, hnil]
      | some e =>
        exact ⟨free, h.of_same (by simp [World.step, hcr, Start])
          (by simp [World.step, hcr, Start]) (by simp [World.step, hcr, Start]),
          by simpa [startsApart] using hs⟩
    | stop e =>
      cases hl : w.tunnel.listener with
      | none =>
        have hnil := h.nil_of_none hl
        have hlive : (World.step env w (.stop e)).live = [] := by
          simp [World.step, hcr, Stop, hl, hnil]
        cases e with
        | none =>
          exact ⟨true, World.OneLive.of_nil true hlive, by simpa [startsApart] using hs⟩
        | some e =>
          exact ⟨free, World.OneLive.of_nil free hlive, by simpa [startsApart] using hs⟩
      | some ln =>
        cases e with
        | none =>
          have hlive : (World.step env w (.stop none)).live = [] := by
            simp [World.step, hcr, Stop, hl, listenerCloses]
            intro x hx
            have := h.stored x hx
            rw [hl] at this
            simpa using this.symm
          exact ⟨true, World.OneLive.of_nil true hlive, by simpa [startsApart] using hs⟩
        | some e =>
          exact ⟨free, h.of_same (by simp [World.step, hcr, Stop, hl])
            (by simp [World.step, hcr, Stop, hl]) (by simp [World.step, hcr, Stop, hl]),
            by simpa [startsApart] using hs⟩
    | loop i r =>
      refine ⟨free, ?_, by simpa [startsApart] using hs⟩
      have hstep : World.step env w (.loop i r) = w.stepLoop i r := by simp [World.step, hcr]
      rw [hstep]
      cases hi : w.loops[i]? with
      | none => simpa [World.stepLoop, hi] using h
      | some l =>
        cases l with
        | top =>
          cases hl : w.tunnel.listener with
          | none =>
            exact World.OneLive.of_nil free (by simp [World.stepLoop, hi, hl, h.nil_of_none hl])
          | some ln =>
            exact h.of_same (by simp [World.stepLoop, hi, hl]) (by simp [World.stepLoop, hi, hl])
              (by simp [World.stepLoop, hi, hl])
        | blocked ln =>
          exact h.of_same (by simp [World.stepLoop, hi]) (by simp [World.stepLoop, hi])
            (by simp [World.stepLoop, hi])
        | got res =>
          cases hr : serveIter res <;>
            exact h.of_same (by simp [World.stepLoop, hi, hr]) (by simp [World.stepLoop, hi, hr])
              (by simp [World.stepLoop, hi, hr])
        | ended => simpa [World.stepLoop, hi] using h
    | session i a =>
      exact ⟨free, h.of_same (by simp [World.step, hcr]) (by simp [World.step, hcr])
        (by simp [World.step, hcr]), by simpa [startsApart] using hs⟩

theorem World.oneLive_run (env : Env) (calls : List Call) (w : World) (free : Bool)
    (h : w.OneLive free) (hs : startsApart free calls = true) (k : Nat) :
    ∃ free2, (World.run env w (calls.take k)).OneLive free2 := by
  induction calls generalizing w free k with
  | nil => exact ⟨free, by simpa [World.run] using h⟩
  | cons c cs ih =>
    cases k with
    | zero => exact ⟨free, by simpa [World.run] using h⟩
    | succ k =>
      obtain ⟨free2, h2, hs2⟩ := World.oneLive_step env w free c cs h hs
      exact ih _ free2 h2 hs2 k

/-- C8 fails as stated: two calls of `Start` whose listens both succeed leave
two listeners of the instance live. -/
theorem two_starts_two_live_listeners :
    (World.run reachableEnv World.init [.start none, .start none]).live = [0, 1]
      ∧ ¬ (World.run reachableEnv World.init [.start none, .start none]).live.length ≤ 1 := by
  decide

/-- C8, as the code has it: along every sequence of calls in which a `Start`
succeeds only while no listener of an earlier `Start` is live (at first, or
after a `Stop` whose close succeeded), at every point of the sequence at most
one listener opened by the instance is live, and it is the one stored in the
tunnel. -/
theorem at_most_one_live_listener (env : Env) (calls : List Call)
    (hs : startsApart true calls = true) (k : Nat) :
    (World.run env World.init (calls.take k)).live.length ≤ 1
      ∧ ∀ ln ∈ (World.run env World.init (calls.take k)).live,
          (World.run env World.init (calls.take k)).tunnel.listener = some ln := by
  obtain ⟨_, h⟩ := World.oneLive_run env calls World.init true
    (World.OneLive.of_nil true rfl) hs k
  exact ⟨h.atMostOne, h.stored⟩

/-- C8 amended, at a concrete input: start, stop, start again. -/
theorem at_most_one_live_listener_witness :
    (World.run reachableEnv World.init
        ([Call.start none, .loop 0 someConn, .loop 0 someConn, .loop 0 someConn, .stop none,
          .start none].take 6)).live.length ≤ 1
      ∧ (World.run reachableEnv World.init
          ([Call.start none, .loop 0 someConn, .loop 0 someConn, .loop 0 someConn, .stop none,
            .start none].take 6)).live = [1] :=
  ⟨(at_most_one_live_listener reachableEnv
      [.start none, .loop 0 someConn, .loop 0 someConn, .loop 0 someConn, .stop none,
       .start none] (by decide) 6).1, by decide⟩

/-! ### The process: `Stop` and the sessions in flight -/

theorem serve_append_of_not_fatal (pre post : List AcceptResult)
    (hpre : ∀ x ∈ pre, isFatal x = false) :
    (serve (pre ++ post)).trace = pre.flatMap iterEvents ++ (serve post).trace
      ∧ (serve (pre ++ post)).returned = (serve post).returned := by
  induction pre with
  | nil => simp
  | cons r rs ih =>
    have hf : isFatal r = false := hpre r (by simp)
    have ih2 := ih (fun x hx => hpre x (by simp [hx]))
    have hi := serveIter_of_not_fatal hf
    cases hs : isSuccess r with
    | true =>
      simp only [hs, if_true] at hi
      simp [serve, hi, iterEvents, hs, ih2]
    | false =>
      simp only [hs] at hi
      simp [serve, hi, iterEvents, hs, ih2]

theorem serve_prints_nothing (rs : List AcceptResult) : printed (serve rs).trace = [] := by
  rw [(serve_trace_eq rs).1, printed_append, printed_flatMap_iterEvents]
  cases rs.any isFatal <;> simp [printed]

/-- C10 fails as stated: `Accept` returns a temporary error and then a
connection; the loop calls `Accept` twice and spawns the session, and nothing
is printed or logged. -/
theorem serve_temporary_error_not_logged :
    isTemporary tempError.err = true
      ∧ (serve [tempError, someConn]).trace
          = [Event.accept, Event.accept, Event.goHandle (.accepted 5)]
      ∧ printed (serve [tempError, someConn]).trace = [] := by
  decide

/-- C10, as the code has it: a temporary accept error that the loop reaches
(no non-temporary error before it) adds nothing to the trace but its `Accept`
call, after which the loop goes on with the next `Accept` as if from the
start; and `serve` never writes a log entry, for this or any other
outcome. -/
theorem serve_ignores_temporary_error (pre post : List AcceptResult) (r : AcceptResult)
    (hpre : ∀ x ∈ pre, isFatal x = false) (ht : isTemporary r.err = true) :
    (serve (pre ++ r :: post)).trace
        = (serve pre).trace ++ Event.accept :: (serve post).trace
      ∧ (serve (pre ++ r :: post)).returned = (serve post).returned
      ∧ printed (serve (pre ++ r :: post)).trace = [] := by
  have h1 := serve_append_of_not_fatal pre (r :: post) hpre
  have h2 := serve_append_of_not_fatal pre [] hpre
  simp only [List.append_nil, serve, List.append_nil] at h2
  have hi : serveIter r = .next := by simp [serveIter, ht]
  refine ⟨?_, ?_, serve_prints_nothing _⟩
  · rw [h1.1, h2.1]; simp [serve, hi]
  · rw [h1.2]; simp [serve, hi]

/-- C10 amended, at a concrete input: a connection, a temporary error, a
second connection. -/
theorem serve_ignores_temporary_error_witness :
    (serve ([someConn] ++ tempError :: [someConn])).trace
        = [Event.accept, Event.goHandle (.accepted 5), Event.accept, Event.accept,
           Event.goHandle (.accepted 5)]
      ∧ printed (serve ([someConn] ++ tempError :: [someConn])).trace = [] := by
  have h := serve_ignores_temporary_error [someConn] [someConn] tempError (by decide) (by decide)
  exact ⟨by rw [h.1]; decide, h.2.2⟩

end TcpTunnel
